import Mathlib

/-!
# math-generator-ai frontend: API client and game stores

A shallow embedding of `frontend/src/lib/api.js` and
`frontend/src/stores/gameStore.js`.

* JavaScript values are the type `JsVal`; an object is the list of its
  entries in the order they were written, a later entry for a key shadowing
  an earlier one (what an object literal and the spread syntax do).
* An `async` function is a function from the world before the call to its
  outcome (`Except`: the promise fulfils or rejects) and the world after it.
  The world records, in order, every HTTP request handed to the axios
  instance and every `console.error` call, and holds the two stores.
* The HTTP transport behind the axios instance is a parameter: for the
  events so far and a request it answers with a response or fails with an
  arbitrary thrown value.
* `writable` is the store of `svelte/store`: `set` compares the current and
  the new value with `safe_not_equal` and, when they differ, stores the new
  value and calls every subscriber with it.
-/

namespace MathGenerator

/-! ## JavaScript values -/

/-- JavaScript values that the client and the stores handle. Numbers are the
integers and `NaN` (the invariant of the data model is about integers, and
`NaN` is the one number the store's change test treats apart); a function is
known by an identifier only. -/
inductive JsVal where
  | undefined : JsVal
  | null : JsVal
  | bool (b : Bool) : JsVal
  | num (n : Int) : JsVal
  | nan : JsVal
  | str (s : String) : JsVal
  | func (id : Nat) : JsVal
  | arr (items : List JsVal) : JsVal
  | obj (fields : List (String × JsVal)) : JsVal

namespace JsVal

instance : Inhabited JsVal := ⟨JsVal.undefined⟩

/-- Last entry written for key `k`, if any (later entries shadow earlier ones). -/
def lookupEntry (k : String) : List (String × JsVal) → Option JsVal
  | [] => none
  | (k', v) :: rest =>
    match lookupEntry k rest with
    | some w => some w
    | none => if k' = k then some v else none

/-- Entries that `{...v}` copies: the own enumerable properties of `v`. -/
def ownEntries : JsVal → List (String × JsVal)
  | obj fields => fields
  | arr items => (List.range items.length).zip items |>.map fun e => (toString e.1, e.2)
  | str s => (List.range s.length).zip s.data |>.map fun e => (toString e.1, str (String.singleton e.2))
  | _ => []

/-- Own-property test: whether `v` has an own enumerable property `k`. -/
def hasOwn (v : JsVal) (k : String) : Bool :=
  (lookupEntry k (ownEntries v)).isSome

/-- Read of the own enumerable property `k` of `v`, `undefined` when there is
none (also where the engine would throw, on `null` and `undefined`). -/
def getField (v : JsVal) (k : String) : JsVal :=
  (lookupEntry k (ownEntries v)).getD undefined

/-- Nested property read `v[k1][k2]...`. -/
def getPath (v : JsVal) : List String → JsVal
  | [] => v
  | k :: rest => getPath (getField v k) rest

/-- Whether the nested path names a property present in `v`. -/
def namedIn (v : JsVal) : List String → Bool
  | [] => true
  | k :: rest => hasOwn v k && namedIn (getField v k) rest

/-- Own keys of `v`, each once, in order of first appearance (the order in
which the engine lists keys that are not array indices). -/
def keys (v : JsVal) : List String :=
  ((ownEntries v).map Prod.fst).eraseDups

/-- Object spread `{...s, ...p}`. -/
def spread (s p : JsVal) : JsVal :=
  obj (ownEntries s ++ ownEntries p)

/-- Test `a && typeof a === 'object'`: a non-null object or array. -/
def isObject : JsVal → Bool
  | obj _ => true
  | arr _ => true
  | _ => false

/-- Test `typeof a === 'function'`. -/
def isFunction : JsVal → Bool
  | func _ => true
  | _ => false

/-- Test `a != a`, true of `NaN` only. -/
def isNaN : JsVal → Bool
  | nan => true
  | _ => false

/-- Strict equality `a === b` on primitives and functions. On objects `===`
compares identity, which values do not carry; the only use, `safe_not_equal`,
does not depend on the answer there. -/
def strictEq : JsVal → JsVal → Bool
  | undefined, undefined => true
  | null, null => true
  | bool a, bool b => a == b
  | num a, num b => a == b
  | str a, str b => a == b
  | func a, func b => a == b
  | _, _ => false

/-- Whether `b` is the primitive `a` over again: both `NaN`, or `a === b` with
`a` neither an object nor a function. -/
def samePrimitive (a b : JsVal) : Bool :=
  (isNaN a && isNaN b) || (strictEq a b && !(isObject a) && !(isFunction a))

/-- Integer content of a number value. -/
def asInt? : JsVal → Option Int
  | num n => some n
  | _ => none

end JsVal

open JsVal

/-! ## `lib/api.js` -/

/-- HTTP methods used by the client. -/
inductive Method where
  | GET
  | POST
  deriving DecidableEq, Repr

/-- Request handed to the axios instance: the instance defaults merged with
the arguments of `api.get` / `api.post`. -/
structure Request where
  method : Method
  baseURL : String
  url : String
  headers : List (String × String)
  data : Option JsVal

/-- Response of the axios instance; `data` is the decoded payload. -/
structure Response where
  status : Nat
  data : JsVal

/-- Observable effects of the client, in order of occurrence. -/
inductive Event where
  | request (r : Request) : Event
  | consoleError (label : String) (value : JsVal) : Event

/-- The transport behind the axios instance: given the events so far and a
request, a response (promise fulfilled) or a thrown value (promise rejected,
for a network failure or a non-2xx status). -/
abbrev Transport := List Event → Request → Except JsVal Response

/-- The store of `svelte/store`: the current value and, for every subscriber,
the values its callback has been called with, oldest first. -/
structure Writable where
  value : JsVal
  subscribers : List (List JsVal)

/-- The page: the effects so far and the two module-level stores. -/
structure World where
  trace : List Event
  gameState : Writable
  studentInsights : Writable

/-- Outcome of an awaited call together with the world after it. -/
abbrev Async (α : Type) := World → Except JsVal α × World

def API_BASE_URL : String := "http://localhost:8000"

/-- Instance defaults of `axios.create({ baseURL, headers })`. -/
def api (method : Method) (url : String) (data : Option JsVal) : Request :=
  { method := method
    baseURL := API_BASE_URL
    url := url
    headers := [("Content-Type", "application/json")]
    data := data }

/-- Sending a request: it is recorded, and the transport decides the outcome. -/
def send (http : Transport) (r : Request) : Async Response := fun w =>
  (http w.trace r, { w with trace := w.trace ++ [Event.request r] })

/-- Call `api.post(url, data)`. -/
def api.post (http : Transport) (url : String) (data : Option JsVal) : Async Response :=
  send http (api Method.POST url data)

/-- Call `api.get(url)`. -/
def api.get (http : Transport) (url : String) : Async Response :=
  send http (api Method.GET url none)

/-- Call `console.error(label, value)`. -/
def consoleError (label : String) (value : JsVal) (w : World) : World :=
  { w with trace := w.trace ++ [Event.consoleError label value] }

namespace mathAPI

def generateProblems (http : Transport) (operations count : JsVal) : Async JsVal := fun w =>
  match api.post http "/generate-problems"
      (some (obj [("operations", operations), ("count", count)])) w with
  | (Except.ok response, w1) => (Except.ok response.data, w1)
  | (Except.error error, w1) =>
    (Except.error error, consoleError "Error generating problems:" error w1)

def recordAttempt (http : Transport) (problem userAnswer timeSpent : JsVal) : Async JsVal := fun w =>
  match api.post http "/record-attempt"
      (some (obj [("problem", problem), ("user_answer", userAnswer),
        ("time_taken", timeSpent)])) w with
  | (Except.ok response, w1) => (Except.ok response.data, w1)
  | (Except.error error, w1) =>
    (Except.error error, consoleError "Error recording attempt:" error w1)

def getStudentInsights (http : Transport) : Async JsVal := fun w =>
  match api.get http "/student-insights" w with
  | (Except.ok response, w1) => (Except.ok response.data, w1)
  | (Except.error error, w1) =>
    (Except.error error, consoleError "Error getting insights:" error w1)

def resetSession (http : Transport) : Async JsVal := fun w =>
  match api.post http "/reset-session" none w with
  | (Except.ok response, w1) => (Except.ok response.data, w1)
  | (Except.error error, w1) =>
    (Except.error error, consoleError "Error resetting session:" error w1)

end mathAPI

/-- An invocation of one of the four operations with its arguments. -/
inductive Call where
  | generateProblems (operations count : JsVal) : Call
  | recordAttempt (problem userAnswer timeSpent : JsVal) : Call
  | getStudentInsights : Call
  | resetSession : Call

/-- Running an invocation. -/
def Call.run (http : Transport) : Call → Async JsVal
  | Call.generateProblems operations count => mathAPI.generateProblems http operations count
  | Call.recordAttempt problem userAnswer timeSpent =>
    mathAPI.recordAttempt http problem userAnswer timeSpent
  | Call.getStudentInsights => mathAPI.getStudentInsights http
  | Call.resetSession => mathAPI.resetSession http

/-- The request an invocation hands to the axios instance. -/
def Call.request : Call → Request
  | Call.generateProblems operations count =>
    api Method.POST "/generate-problems" (some (obj [("operations", operations), ("count", count)]))
  | Call.recordAttempt problem userAnswer timeSpent =>
    api Method.POST "/record-attempt"
      (some (obj [("problem", problem), ("user_answer", userAnswer), ("time_taken", timeSpent)]))
  | Call.getStudentInsights => api Method.GET "/student-insights" none
  | Call.resetSession => api Method.POST "/reset-session" none

/-- The label each operation passes to `console.error`. -/
def Call.label : Call → String
  | Call.generateProblems _ _ => "Error generating problems:"
  | Call.recordAttempt _ _ _ => "Error recording attempt:"
  | Call.getStudentInsights => "Error getting insights:"
  | Call.resetSession => "Error resetting session:"

/-- Requests among a list of events. -/
def requestsOf : List Event → List Request
  | [] => []
  | Event.request r :: rest => r :: requestsOf rest
  | Event.consoleError _ _ :: rest => requestsOf rest

/-- Values logged to the error console among a list of events. -/
def loggedOf : List Event → List JsVal
  | [] => []
  | Event.request _ :: rest => loggedOf rest
  | Event.consoleError _ v :: rest => v :: loggedOf rest

/-! ## `stores/gameStore.js` -/

/-- Change test of `svelte/store`:
`a != a ? b == b : a !== b || (a && typeof a === 'object') || typeof a === 'function'`.
For an object `a` the result is `true` whatever `b` is. -/
def safe_not_equal (a b : JsVal) : Bool :=
  if isNaN a then !(isNaN b) else !(strictEq a b) || isObject a || isFunction a

/-- Call `writable(value)`: a store with no subscriber yet. -/
def writable (value : JsVal) : Writable :=
  { value := value, subscribers := [] }

namespace Writable

/-- Call `store.set(new_value)`: when the value counts as changed it is stored
and every subscriber is called with it; otherwise nothing happens. -/
def set (st : Writable) (new_value : JsVal) : Writable :=
  if safe_not_equal st.value new_value then
    { value := new_value
      subscribers := st.subscribers.map fun received => received ++ [new_value] }
  else st

/-- Call `store.update(fn)`, which is `set(fn(value))`. -/
def update (st : Writable) (fn : JsVal → JsVal) : Writable :=
  st.set (fn st.value)

/-- Call `store.subscribe(run)`: the new subscriber is called at once with the
current value. -/
def subscribe (st : Writable) : Writable :=
  { st with subscribers := st.subscribers ++ [[st.value]] }

end Writable

/-- A write to a store: replace the whole value, or apply a function to it. -/
inductive Write where
  | set (new_value : JsVal) : Write
  | update (fn : JsVal → JsVal) : Write

/-- The partial update `update(s => ({...s, ...p}))`. -/
def Write.patch (p : JsVal) : Write :=
  Write.update fun s => spread s p

/-- The value a write asks the store to hold, given the current one. -/
def Write.value (current : JsVal) : Write → JsVal
  | Write.set new_value => new_value
  | Write.update fn => fn current

/-- Performing one write. -/
def Writable.write (st : Writable) : Write → Writable
  | Write.set new_value => st.set new_value
  | Write.update fn => st.update fn

/-- Performing a sequence of writes, first to last. -/
def Writable.writes (st : Writable) : List Write → Writable
  | [] => st
  | w :: rest => Writable.writes (st.write w) rest

/-- The values a sequence of writes asks the store to hold, first to last. -/
def writtenValues (st : Writable) : List Write → List JsVal
  | [] => []
  | w :: rest => w.value st.value :: writtenValues (st.write w) rest

/-- The values the subscribers are to be told of when the store holds
`current` and the writes are made first to last: every written value, except
one that is the primitive the store holds at that time (`samePrimitive`),
after which the store holds what it held. -/
def notifiedValues (current : JsVal) : List Write → List JsVal
  | [] => []
  | w :: rest =>
    if samePrimitive current (w.value current) then notifiedValues current rest
    else w.value current :: notifiedValues (w.value current) rest

/-- Initial record of `gameState`. -/
def gameStateInitial : JsVal :=
  obj [
    ("currentProblem", null),
    ("problemIndex", num 0),
    ("totalProblems", num 0),
    ("problems", arr []),
    ("sessionStats", obj [
      ("correct", num 0),
      ("incorrect", num 0),
      ("total", num 0)]),
    ("userAnswer", str ""),
    ("showFeedback", bool false),
    ("sessionComplete", bool false),
    ("isLoading", bool false),
    ("error", null)]

/-- Initial record of `studentInsights`. -/
def studentInsightsInitial : JsVal :=
  obj [
    ("total_problems_attempted", num 0),
    ("recent_accuracy", num 0),
    ("weak_areas", obj []),
    ("most_common_mistakes", obj []),
    ("recommended_focus", null)]

def gameState : Writable := writable gameStateInitial

def studentInsights : Writable := writable studentInsightsInitial

/-- The page right after the modules are loaded. -/
def World.initial : World :=
  { trace := [], gameState := MathGenerator.gameState,
    studentInsights := MathGenerator.studentInsights }

/-- A write to the `gameState` store of the page. -/
def World.writeGameState (w : World) (wr : Write) : World :=
  { w with gameState := w.gameState.write wr }

/-- A write to the `studentInsights` store of the page. -/
def World.writeStudentInsights (w : World) (wr : Write) : World :=
  { w with studentInsights := w.studentInsights.write wr }

/-! ### The data model of the specification -/

/-- Fields of SessionState as the data model lists them. -/
def SessionStateFields : List String :=
  ["currentProblem", "problemIndex", "totalProblems", "problems", "sessionStats",
   "userAnswer", "showFeedback", "sessionComplete", "isLoading", "error"]

/-- Fields of `sessionStats` as the data model lists them. -/
def SessionStatsFields : List String :=
  ["correct", "incorrect", "total"]

/-- Fields of InsightsState as the data model lists them. -/
def InsightsStateFields : List String :=
  ["total_problems_attempted", "recent_accuracy", "weak_areas", "most_common_mistakes",
   "recommended_focus"]

/-- The invariant of the data model on a session record: `problemIndex`,
`totalProblems`, `correct`, `incorrect` and `total` are integers `≥ 0` and
`correct + incorrect ≤ total ≤ totalProblems`. -/
def sessionInvariant (s : JsVal) : Bool :=
  match asInt? (getField s "problemIndex"), asInt? (getField s "totalProblems"),
      asInt? (getPath s ["sessionStats", "correct"]),
      asInt? (getPath s ["sessionStats", "incorrect"]),
      asInt? (getPath s ["sessionStats", "total"]) with
  | some problemIndex, some totalProblems, some correct, some incorrect, some total =>
    decide (0 ≤ problemIndex ∧ 0 ≤ totalProblems ∧ 0 ≤ correct ∧ 0 ≤ incorrect ∧ 0 ≤ total ∧
      correct + incorrect ≤ total ∧ total ≤ totalProblems)
  | _, _, _, _, _ => false

/-! ### Object identity at module load

Values do not carry identity, so whether two records share a nested object is
read off an allocation model of the module: every object or array literal
allocates a fresh cell when it is evaluated. -/

/-- A value as held in a variable or property: a primitive or a reference. -/
inductive Slot where
  | undefined : Slot
  | null : Slot
  | bool (b : Bool) : Slot
  | num (n : Int) : Slot
  | str (s : String) : Slot
  | ref (address : Nat) : Slot

/-- An allocated object or array. -/
inductive Cell where
  | object (fields : List (String × Slot)) : Cell
  | array (items : List Slot) : Cell

/-- The heap: the cell at position `a` has address `a`. -/
abbrev Heap := List Cell

/-- Evaluating a literal: the cell gets the next free address. -/
def Heap.alloc (h : Heap) (c : Cell) : Slot × Heap :=
  (Slot.ref h.length, h ++ [c])

/-- Slots directly held by a cell. -/
def Cell.slots : Cell → List Slot
  | Cell.object fields => fields.map Prod.snd
  | Cell.array items => items

/-- Addresses of the objects reachable from a slot, itself included, following
at most `depth` references. -/
def reachable (h : Heap) : Nat → Slot → List Nat
  | 0, _ => []
  | depth + 1, Slot.ref a =>
    match h.get? a with
    | some c => a :: (c.slots.map fun s => reachable h depth s).flatten
    | none => [a]
  | _ + 1, _ => []

/-- The value a slot denotes, following at most `depth` references. -/
def reify (h : Heap) : Nat → Slot → JsVal
  | _, Slot.undefined => JsVal.undefined
  | _, Slot.null => JsVal.null
  | _, Slot.bool b => JsVal.bool b
  | _, Slot.num n => JsVal.num n
  | _, Slot.str s => JsVal.str s
  | 0, Slot.ref _ => JsVal.undefined
  | depth + 1, Slot.ref a =>
    match h.get? a with
    | some (Cell.object fields) => JsVal.obj (fields.map fun e => (e.1, reify h depth e.2))
    | some (Cell.array items) => JsVal.arr (items.map fun s => reify h depth s)
    | none => JsVal.undefined

/-- The module after loading: the heap and the arguments of the two
`writable` calls. -/
structure GameStoreModule where
  heap : Heap
  gameState : Slot
  studentInsights : Slot

/-- Loading `gameStore.js`: the literals are evaluated in source order, inner
ones before the object that holds them. -/
def loadGameStore : GameStoreModule :=
  let h0 : Heap := []
  let (problems, h1) := h0.alloc (Cell.array [])
  let (sessionStats, h2) := h1.alloc (Cell.object [
    ("correct", Slot.num 0),
    ("incorrect", Slot.num 0),
    ("total", Slot.num 0)])
  let (game, h3) := h2.alloc (Cell.object [
    ("currentProblem", Slot.null),
    ("problemIndex", Slot.num 0),
    ("totalProblems", Slot.num 0),
    ("problems", problems),
    ("sessionStats", sessionStats),
    ("userAnswer", Slot.str ""),
    ("showFeedback", Slot.bool false),
    ("sessionComplete", Slot.bool false),
    ("isLoading", Slot.bool false),
    ("error", Slot.null)])
  let (weak_areas, h4) := h3.alloc (Cell.object [])
  let (most_common_mistakes, h5) := h4.alloc (Cell.object [])
  let (insights, h6) := h5.alloc (Cell.object [
    ("total_problems_attempted", Slot.num 0),
    ("recent_accuracy", Slot.num 0),
    ("weak_areas", weak_areas),
    ("most_common_mistakes", most_common_mistakes),
    ("recommended_focus", Slot.null)])
  { heap := h6, gameState := game, studentInsights := insights }

/-! ## Concrete inputs used below -/

/-- A transport that answers every request with five problems. -/
def fiveProblems : Transport := fun _ _ =>
  Except.ok { status := 200,
              data := obj [("problems", arr [num 1, num 2, num 3, num 4, num 5])] }

/-- A transport that fails every request with the same thrown value. -/
def networkDown : Transport := fun _ _ =>
  Except.error (str "Network Error")

/-- A patch that names `sessionStats` with only its `correct` sub-field. -/
def patchCorrectOnly : JsVal :=
  obj [("sessionStats", obj [("correct", num 1)])]

/-- A patch recording a correct answer while no problem has been generated. -/
def patchOneCorrect : JsVal :=
  obj [("sessionStats", obj [("correct", num 1), ("incorrect", num 0), ("total", num 0)])]

/-- Two partial updates of a session of five problems: the problems arrive,
then one answer is counted as correct. -/
def fiveProblemSession : List Write :=
  [Write.patch (obj [("totalProblems", num 5)]),
   Write.patch (obj [("sessionStats",
     obj [("correct", num 1), ("incorrect", num 0), ("total", num 1)])])]

/-- Three writes of records, the first of them the record the store holds. -/
def recordWrites : List Write :=
  [Write.set gameStateInitial, Write.patch (obj [("isLoading", bool true)]),
   Write.update fun s => s]

/-- Writes that repeat a string, `NaN`, `null` and a record. -/
def repeatedWrites : List Write :=
  [Write.set (str "a"), Write.set (str "a"), Write.set nan, Write.set nan,
   Write.set null, Write.set null, Write.set gameStateInitial, Write.set gameStateInitial]

/-! ## Lemmas -/

theorem requestsOf_append (xs ys : List Event) :
    requestsOf (xs ++ ys) = requestsOf xs ++ requestsOf ys := by
  induction xs with
  | nil => rfl
  | cons x rest ih => cases x <;> simp [requestsOf, ih]

theorem loggedOf_append (xs ys : List Event) :
    loggedOf (xs ++ ys) = loggedOf xs ++ loggedOf ys := by
  induction xs with
  | nil => rfl
  | cons x rest ih => cases x <;> simp [loggedOf, ih]

/-- Every operation runs the same way: hand `c.request` to the transport,
then return the payload or log and rethrow. -/
theorem Call.run_eq (http : Transport) (c : Call) (w : World) :
    c.run http w =
      match http w.trace c.request with
      | Except.ok response =>
        (Except.ok response.data, { w with trace := w.trace ++ [Event.request c.request] })
      | Except.error error =>
        (Except.error error,
          { w with trace := w.trace ++ [Event.request c.request,
              Event.consoleError c.label error] }) := by
  cases c <;>
    simp only [Call.run, Call.request, Call.label, mathAPI.generateProblems,
      mathAPI.recordAttempt, mathAPI.getStudentInsights, mathAPI.resetSession,
      api.post, api.get, send, consoleError] <;>
    generalize http w.trace _ = outcome <;>
    cases outcome <;> simp

/-- The requests after an invocation are those before it and `c.request`. -/
theorem Call.requestsOf_run (http : Transport) (c : Call) (w : World) :
    requestsOf (c.run http w).2.trace = requestsOf w.trace ++ [c.request] := by
  rw [Call.run_eq]
  cases http w.trace c.request <;> simp [requestsOf_append, requestsOf]

theorem getField_obj_singleton (k : String) (v : JsVal) : getField (obj [(k, v)]) k = v := by
  simp [getField, ownEntries, lookupEntry]

/-! ## The API client -/

/-- C1: whenever the HTTP call of an operation succeeds with a response, the
operation returns the payload `response.data` of that response unchanged; when
the payload is `{problems: items}` the returned value's `problems` is the same
sequence `items` (same length, same items, same order). -/
theorem mathAPI_returns_payload (http : Transport) (c : Call) (w : World)
    (response : Response) (h : http w.trace c.request = Except.ok response) :
    (c.run http w).1 = Except.ok response.data ∧
    ∀ items : List JsVal, response.data = obj [("problems", arr items)] →
      ∃ v, (c.run http w).1 = Except.ok v ∧ getField v "problems" = arr items := by
  have hrun : (c.run http w).1 = Except.ok response.data := by
    rw [Call.run_eq, h]
  refine ⟨hrun, fun items hitems => ⟨response.data, hrun, ?_⟩⟩
  rw [hitems]
  exact getField_obj_singleton _ _

theorem mathAPI_returns_payload_witness :
    fiveProblems World.initial.trace
        (Call.generateProblems (arr [str "add", str "sub"]) (num 5)).request
      = Except.ok { status := 200,
                    data := obj [("problems", arr [num 1, num 2, num 3, num 4, num 5])] } ∧
    ((Call.generateProblems (arr [str "add", str "sub"]) (num 5)).run fiveProblems
        World.initial).1
      = Except.ok (obj [("problems", arr [num 1, num 2, num 3, num 4, num 5])]) ∧
    ∃ v, ((Call.generateProblems (arr [str "add", str "sub"]) (num 5)).run fiveProblems
        World.initial).1 = Except.ok v ∧
      getField v "problems" = arr [num 1, num 2, num 3, num 4, num 5] :=
  have h := mathAPI_returns_payload fiveProblems
    (Call.generateProblems (arr [str "add", str "sub"]) (num 5)) World.initial
    { status := 200, data := obj [("problems", arr [num 1, num 2, num 3, num 4, num 5])] }
    rfl
  ⟨rfl, h.1, h.2 _ rfl⟩

/-- C2: whenever the HTTP call of an operation fails with a value `e`, the
operation fails with that same `e`, and what it added to the effects is the
request followed by exactly one `console.error` call whose logged value is
`e`; and the operation fails exactly when the HTTP call fails. -/
theorem mathAPI_logs_and_rethrows (http : Transport) (c : Call) (w : World) :
    (∀ e : JsVal, http w.trace c.request = Except.error e →
      (c.run http w).1 = Except.error e ∧
      (c.run http w).2.trace
        = w.trace ++ [Event.request c.request, Event.consoleError c.label e] ∧
      loggedOf (c.run http w).2.trace = loggedOf w.trace ++ [e]) ∧
    ((∃ e, (c.run http w).1 = Except.error e) ↔
      ∃ e, http w.trace c.request = Except.error e) := by
  constructor
  · intro e h
    rw [Call.run_eq, h]
    simp [loggedOf_append, loggedOf]
  · rw [Call.run_eq]
    cases http w.trace c.request <;> simp

theorem mathAPI_logs_and_rethrows_witness :
    networkDown World.initial.trace Call.resetSession.request
      = Except.error (str "Network Error") ∧
    (Call.resetSession.run networkDown World.initial).1 = Except.error (str "Network Error") ∧
    (Call.resetSession.run networkDown World.initial).2.trace
      = World.initial.trace ++ [Event.request Call.resetSession.request,
          Event.consoleError Call.resetSession.label (str "Network Error")] ∧
    loggedOf (Call.resetSession.run networkDown World.initial).2.trace
      = loggedOf World.initial.trace ++ [str "Network Error"] :=
  ⟨rfl, (mathAPI_logs_and_rethrows networkDown Call.resetSession World.initial).1
    (str "Network Error") rfl⟩

/-- C3: `recordAttempt(p, a, t)` hands exactly one request to the axios
instance, a POST to `/record-attempt` whose body has exactly the fields
`problem`, `user_answer` and `time_taken`, holding `p`, `a` and `t`. -/
theorem recordAttempt_sends_body (http : Transport) (p a t : JsVal) (w : World) :
    ∃ r body, requestsOf (mathAPI.recordAttempt http p a t w).2.trace
        = requestsOf w.trace ++ [r] ∧
      r.method = Method.POST ∧ r.url = "/record-attempt" ∧ r.data = some body ∧
      keys body = ["problem", "user_answer", "time_taken"] ∧
      getField body "problem" = p ∧ getField body "user_answer" = a ∧
      getField body "time_taken" = t := by
  refine ⟨(Call.recordAttempt p a t).request, _,
    Call.requestsOf_run http (Call.recordAttempt p a t) w, rfl, rfl, rfl, ?_, ?_, ?_, ?_⟩
  · rfl
  · simp [getField, ownEntries, lookupEntry]
  · simp [getField, ownEntries, lookupEntry]
  · simp [getField, ownEntries, lookupEntry]

/-- C4: for all arguments, the one request that `generateProblems(operations,
count)` hands the axios instance is a POST to `/generate-problems` whose body
has exactly the fields `operations` and `count` holding the two arguments; that
of `getStudentInsights()` a GET to `/student-insights` without body; that of
`resetSession()` a POST to `/reset-session` without body; and each of these
requests, as the request of `recordAttempt`, carries the base URL
`http://localhost:8000` and the header `Content-Type: application/json` as its
only header. -/
theorem requests_match_endpoint_table (http : Transport) (w : World) :
    (∀ operations count : JsVal, ∃ r body,
      requestsOf (mathAPI.generateProblems http operations count w).2.trace
        = requestsOf w.trace ++ [r] ∧
      r.method = Method.POST ∧ r.url = "/generate-problems" ∧ r.data = some body ∧
      keys body = ["operations", "count"] ∧
      getField body "operations" = operations ∧ getField body "count" = count ∧
      r.baseURL = "http://localhost:8000" ∧
      r.headers = [("Content-Type", "application/json")]) ∧
    (∃ r, requestsOf (mathAPI.getStudentInsights http w).2.trace = requestsOf w.trace ++ [r] ∧
      r.method = Method.GET ∧ r.url = "/student-insights" ∧ r.data = none ∧
      r.baseURL = "http://localhost:8000" ∧
      r.headers = [("Content-Type", "application/json")]) ∧
    (∃ r, requestsOf (mathAPI.resetSession http w).2.trace = requestsOf w.trace ++ [r] ∧
      r.method = Method.POST ∧ r.url = "/reset-session" ∧ r.data = none ∧
      r.baseURL = "http://localhost:8000" ∧
      r.headers = [("Content-Type", "application/json")]) ∧
    (∀ problem userAnswer timeSpent : JsVal, ∃ r,
      requestsOf (mathAPI.recordAttempt http problem userAnswer timeSpent w).2.trace
        = requestsOf w.trace ++ [r] ∧
      r.baseURL = "http://localhost:8000" ∧
      r.headers = [("Content-Type", "application/json")]) := by
  refine ⟨fun operations count => ⟨(Call.generateProblems operations count).request, _,
      Call.requestsOf_run http (Call.generateProblems operations count) w,
      rfl, rfl, rfl, ?_, ?_, ?_, rfl, rfl⟩,
    ⟨Call.getStudentInsights.request, Call.requestsOf_run http Call.getStudentInsights w,
      rfl, rfl, rfl, rfl, rfl⟩,
    ⟨Call.resetSession.request, Call.requestsOf_run http Call.resetSession w,
      rfl, rfl, rfl, rfl, rfl⟩,
    fun problem userAnswer timeSpent =>
      ⟨(Call.recordAttempt problem userAnswer timeSpent).request,
        Call.requestsOf_run http (Call.recordAttempt problem userAnswer timeSpent) w,
        rfl, rfl⟩⟩
  · rfl
  · simp [getField, ownEntries, lookupEntry]
  · simp [getField, ownEntries, lookupEntry]

/-- C5: every invocation of an operation, whether its HTTP call succeeds or
fails, issues exactly one request: the requests after it are those before it
and one more, and what it added to the effects holds a single request. -/
theorem mathAPI_single_request (http : Transport) (c : Call) (w : World) :
    (requestsOf (c.run http w).2.trace).length = (requestsOf w.trace).length + 1 ∧
    ∃ added, (c.run http w).2.trace = w.trace ++ added ∧ requestsOf added = [c.request] := by
  constructor
  · rw [Call.requestsOf_run]
    simp
  · rw [Call.run_eq]
    cases http w.trace c.request
    · exact ⟨_, rfl, rfl⟩
    · exact ⟨_, rfl, rfl⟩

/-! ## The stores -/

theorem ownEntries_obj (fields : List (String × JsVal)) : ownEntries (obj fields) = fields :=
  rfl

theorem lookupEntry_append (k : String) (xs ys : List (String × JsVal)) :
    lookupEntry k (xs ++ ys) =
      match lookupEntry k ys with
      | some v => some v
      | none => lookupEntry k xs := by
  induction xs with
  | nil => cases h : lookupEntry k ys <;> simp [lookupEntry, h]
  | cons x rest ih =>
    obtain ⟨k', v⟩ := x
    rw [List.cons_append, lookupEntry, ih]
    cases h : lookupEntry k ys
    · simp only [lookupEntry]
    · rfl

theorem safe_not_equal_eq (a b : JsVal) : safe_not_equal a b = !(samePrimitive a b) := by
  cases a <;> cases b <;> simp [safe_not_equal, samePrimitive, isNaN, strictEq, isObject, isFunction]

theorem samePrimitive_obj_right (a : JsVal) (fields : List (String × JsVal)) :
    samePrimitive a (obj fields) = false := by
  cases a <;> rfl

theorem samePrimitive_of_isObject_right (a v : JsVal) (h : isObject v = true) :
    samePrimitive a v = false := by
  cases v <;> simp [isObject] at h <;> cases a <;> rfl

theorem Writable.set_of_not_same (st : Writable) (v : JsVal)
    (h : samePrimitive st.value v = false) :
    st.set v = { value := v, subscribers := st.subscribers.map fun received => received ++ [v] } := by
  simp [Writable.set, safe_not_equal_eq, h]

theorem Writable.write_of_not_same (st : Writable) (w : Write)
    (h : samePrimitive st.value (w.value st.value) = false) :
    st.write w = { value := w.value st.value,
                   subscribers := st.subscribers.map fun received => received ++ [w.value st.value] } := by
  cases w <;> exact Writable.set_of_not_same st _ h

/-- A write leaves the store with the value it asks for or with the value it had. -/
theorem Writable.write_value (st : Writable) (w : Write) :
    (st.write w).value = w.value st.value ∨ (st.write w).value = st.value := by
  cases w <;> simp only [Writable.write, Writable.update, Writable.set, Write.value] <;>
    split <;> simp

/-- The partial update always stores the spread of the current value and the patch. -/
theorem Writable.write_patch_value (st : Writable) (p : JsVal) :
    (st.write (Write.patch p)).value = spread st.value p := by
  rw [Writable.write_of_not_same st (Write.patch p) (samePrimitive_obj_right _ _)]
  rfl

theorem getField_spread (s p : JsVal) (k : String) :
    getField (spread s p) k = if hasOwn p k then getField p k else getField s k := by
  simp only [getField, spread, hasOwn, ownEntries_obj, lookupEntry_append]
  cases lookupEntry k (ownEntries p) <;> simp

theorem hasOwn_spread (s p : JsVal) (k : String) :
    hasOwn (spread s p) k = (hasOwn p k || hasOwn s k) := by
  simp only [spread, hasOwn, ownEntries_obj, lookupEntry_append]
  cases lookupEntry k (ownEntries p) <;> simp

theorem sessionInvariant_writes (st : Writable) (ws : List Write)
    (h0 : sessionInvariant st.value = true)
    (h : (writtenValues st ws).all sessionInvariant = true) :
    sessionInvariant (st.writes ws).value = true := by
  induction ws generalizing st with
  | nil => exact h0
  | cons w rest ih =>
    simp only [writtenValues, List.all_cons, Bool.and_eq_true] at h
    apply ih (st.write w) _ h.2
    rcases Writable.write_value st w with hv | hv
    · rw [hv]; exact h.1
    · rw [hv]; exact h0

theorem Writable.set_of_same (st : Writable) (v : JsVal) (h : samePrimitive st.value v = true) :
    st.set v = st := by
  simp [Writable.set, safe_not_equal_eq, h]

theorem Writable.write_of_same (st : Writable) (w : Write)
    (h : samePrimitive st.value (w.value st.value) = true) :
    st.write w = st := by
  cases w <;> exact Writable.set_of_same st _ h

theorem subscribers_writes (st : Writable) (ws : List Write) :
    (st.writes ws).subscribers
      = st.subscribers.map fun received => received ++ notifiedValues st.value ws := by
  induction ws generalizing st with
  | nil => simp [Writable.writes, notifiedValues]
  | cons w rest ih =>
    simp only [Writable.writes, notifiedValues]
    rw [ih (st.write w)]
    cases h : samePrimitive st.value (w.value st.value)
    · rw [Writable.write_of_not_same st w h]
      simp [List.map_map, Function.comp_def]
    · rw [Writable.write_of_same st w h]
      simp

/-- When only records are written, every written value is notified. -/
theorem notifiedValues_of_records (st : Writable) (ws : List Write)
    (h : (writtenValues st ws).all isObject = true) :
    notifiedValues st.value ws = writtenValues st ws := by
  induction ws generalizing st with
  | nil => rfl
  | cons w rest ih =>
    simp only [writtenValues, List.all_cons, Bool.and_eq_true] at h
    have hw := samePrimitive_of_isObject_right st.value _ h.1
    simp only [notifiedValues, writtenValues, hw]
    rw [← ih (st.write w) h.2, Writable.write_of_not_same st w hw]
    simp

/-- C6, the claim at a concrete input: patching the initial `gameState` with
`{sessionStats: {correct: 1}}` does not name `sessionStats.incorrect`, which was
`0` before the update, and is `undefined` after it. -/
theorem partial_update_drops_subfields :
    namedIn patchCorrectOnly ["sessionStats", "incorrect"] = false ∧
    getPath gameState.value ["sessionStats", "incorrect"] = num 0 ∧
    getPath (gameState.write (Write.patch patchCorrectOnly)).value
      ["sessionStats", "incorrect"] = undefined ∧
    getPath (gameState.write (Write.patch patchCorrectOnly)).value
      ["sessionStats", "incorrect"]
      ≠ getPath gameState.value ["sessionStats", "incorrect"] :=
  ⟨rfl, rfl, rfl, fun h => JsVal.noConfusion h⟩

/-- C6, amended: for every store, current value and patch `p`, the partial
update `update(s => ({...s, ...p}))` stores a record whose top-level field `k`
is `p`'s when `p` names `k` and the previous one otherwise, and which has the
field `k` exactly when `p` or the previous value has it; what lies below a
top-level field comes with that field as a whole, from `p` when `p` names the
field and from the previous value otherwise. -/
theorem partial_update_top_level (st : Writable) (p : JsVal) (k : String)
    (rest : List String) :
    getField (st.write (Write.patch p)).value k
      = (if hasOwn p k then getField p k else getField st.value k) ∧
    hasOwn (st.write (Write.patch p)).value k = (hasOwn p k || hasOwn st.value k) ∧
    getPath (st.write (Write.patch p)).value (k :: rest)
      = (if hasOwn p k then getPath p (k :: rest) else getPath st.value (k :: rest)) := by
  rw [Writable.write_patch_value]
  refine ⟨getField_spread _ _ _, hasOwn_spread _ _ _, ?_⟩
  simp only [getPath, getField_spread]
  split <;> rfl

/-- C7, the claim at a concrete input: one partial update of the initial
`gameState` with `{sessionStats: {correct: 1, incorrect: 0, total: 0}}` reaches
a state that breaks `correct + incorrect ≤ total`. -/
theorem invariant_not_enforced :
    sessionInvariant gameState.value = true ∧
    sessionInvariant (gameState.writes [Write.patch patchOneCorrect]).value = false := by
  decide

/-- C7, amended: the initial `gameState` record satisfies the invariant, and so
does every state reached from it through writes (replace or update) each of
which asks for a record that satisfies it; the store itself checks nothing. -/
theorem invariant_kept_by_valid_writes (st : Writable) (ws : List Write)
    (h0 : st.value = gameStateInitial)
    (h : (writtenValues st ws).all sessionInvariant = true) :
    sessionInvariant st.value = true ∧ sessionInvariant (st.writes ws).value = true := by
  have hinit : sessionInvariant st.value = true := by rw [h0]; decide
  exact ⟨hinit, sessionInvariant_writes st ws hinit h⟩

theorem invariant_kept_by_valid_writes_witness :
    gameState.value = gameStateInitial ∧
    (writtenValues gameState fiveProblemSession).all sessionInvariant = true ∧
    sessionInvariant gameState.value = true ∧
    sessionInvariant (gameState.writes fiveProblemSession).value = true :=
  ⟨rfl, by decide,
    invariant_kept_by_valid_writes gameState fiveProblemSession rfl (by decide)⟩

/-- C8, the claim at a concrete input: after `set(0)` a second `set(0)` calls no
subscriber; the one subscriber of `gameState` has received the initial record
and a single `0` over two writes. -/
theorem identical_primitive_write_filtered :
    (writtenValues gameState.subscribe [Write.set (num 0), Write.set (num 0)]).length = 2 ∧
    (gameState.subscribe.writes [Write.set (num 0), Write.set (num 0)]).subscribers
      = [[gameStateInitial, num 0]] ∧
    (gameState.subscribe.writes [Write.set (num 0)]).subscribers
      = (gameState.subscribe.writes [Write.set (num 0), Write.set (num 0)]).subscribers :=
  ⟨rfl, rfl, rfl⟩

/-- C8, amended: for every store and every sequence of writes, every
subscriber is called once for every write, in order, except for a write whose
new value is the primitive the store holds at that time (`===`, or `NaN` over
`NaN`): such a write changes nothing and calls nobody, and every other write
calls every subscriber with the new value; a sequence that writes only records
(objects or arrays) has no filtered write, also when a record written is the
one already held. -/
theorem subscribers_notified_on_every_write (st : Writable) (ws : List Write) :
    (st.writes ws).subscribers
      = st.subscribers.map (fun received => received ++ notifiedValues st.value ws) ∧
    (∀ w : Write, samePrimitive st.value (w.value st.value) = true → st.write w = st) ∧
    (∀ w : Write, samePrimitive st.value (w.value st.value) = false →
      (st.write w).value = w.value st.value ∧
      (st.write w).subscribers
        = st.subscribers.map (fun received => received ++ [w.value st.value])) ∧
    ((writtenValues st ws).all isObject = true →
      notifiedValues st.value ws = writtenValues st ws ∧
      (st.writes ws).subscribers
        = st.subscribers.map (fun received => received ++ writtenValues st ws)) := by
  refine ⟨subscribers_writes st ws, fun w h => Writable.write_of_same st w h,
    fun w h => ?_, fun h => ?_⟩
  · rw [Writable.write_of_not_same st w h]
    exact ⟨rfl, rfl⟩
  · have hn := notifiedValues_of_records st ws h
    refine ⟨hn, ?_⟩
    rw [← hn]
    exact subscribers_writes st ws

theorem subscribers_notified_on_every_write_witness :
    (gameState.subscribe.writes repeatedWrites).subscribers
      = [[gameStateInitial, str "a", nan, null, gameStateInitial, gameStateInitial]] ∧
    samePrimitive (gameState.subscribe.set (str "a")).value
      ((Write.set (str "a")).value (gameState.subscribe.set (str "a")).value) = true ∧
    (gameState.subscribe.set (str "a")).write (Write.set (str "a"))
      = gameState.subscribe.set (str "a") ∧
    (writtenValues gameState.subscribe recordWrites).all isObject = true ∧
    (gameState.subscribe.writes recordWrites).subscribers
      = gameState.subscribe.subscribers.map
          (fun received => received ++ writtenValues gameState.subscribe recordWrites) :=
  ⟨(subscribers_notified_on_every_write gameState.subscribe repeatedWrites).1,
    rfl,
    (subscribers_notified_on_every_write (gameState.subscribe.set (str "a")) []).2.1
      (Write.set (str "a")) rfl,
    by decide,
    ((subscribers_notified_on_every_write gameState.subscribe recordWrites).2.2.2
      (by decide)).2⟩

/-- C9: a write to `gameState` leaves `studentInsights` as it was and a write to
`studentInsights` leaves `gameState` as it was; the two initial records have no
field name in common and, in the allocation model of the module (whose two
records denote the two initial values), no object reachable from one is
reachable from the other; and an API operation leaves both stores as they were
and its outcome does not depend on them. -/
theorem stores_independent :
    (∀ (w : World) (wr : Write), (w.writeGameState wr).studentInsights = w.studentInsights) ∧
    (∀ (w : World) (wr : Write), (w.writeStudentInsights wr).gameState = w.gameState) ∧
    (∀ k, k ∈ keys gameState.value → k ∉ keys studentInsights.value) ∧
    reify loadGameStore.heap loadGameStore.heap.length loadGameStore.gameState
      = gameState.value ∧
    reify loadGameStore.heap loadGameStore.heap.length loadGameStore.studentInsights
      = studentInsights.value ∧
    (∀ a, a ∈ reachable loadGameStore.heap loadGameStore.heap.length loadGameStore.gameState →
      a ∉ reachable loadGameStore.heap loadGameStore.heap.length
        loadGameStore.studentInsights) ∧
    (∀ (http : Transport) (c : Call) (w : World),
      (c.run http w).2.gameState = w.gameState ∧
      (c.run http w).2.studentInsights = w.studentInsights ∧
      ∀ g i : Writable,
        (c.run http { w with gameState := g, studentInsights := i }).1 = (c.run http w).1) := by
  refine ⟨fun _ _ => rfl, fun _ _ => rfl, by decide, rfl, rfl, by decide, ?_⟩
  intro http c w
  refine ⟨?_, ?_, fun g i => ?_⟩
  · rw [Call.run_eq]; cases http w.trace c.request <;> rfl
  · rw [Call.run_eq]; cases http w.trace c.request <;> rfl
  · rw [Call.run_eq, Call.run_eq]; cases http w.trace c.request <;> rfl

/-- C10: the initial `gameState` record has exactly the fields of SessionState,
with `currentProblem` null, `problemIndex` and `totalProblems` 0, `problems`
empty, `sessionStats` exactly `{correct: 0, incorrect: 0, total: 0}`,
`userAnswer` the empty string, the three flags false and `error` null, and it
satisfies the invariant; the initial `studentInsights` record has exactly the
fields of InsightsState, with `total_problems_attempted` 0, `recent_accuracy` 0
(within `[0, 1]`), `weak_areas` and `most_common_mistakes` empty objects and
`recommended_focus` null. -/
theorem initial_values_match_data_model :
    (keys gameState.value = SessionStateFields ∧
      getField gameState.value "currentProblem" = null ∧
      getField gameState.value "problemIndex" = num 0 ∧
      getField gameState.value "totalProblems" = num 0 ∧
      getField gameState.value "problems" = arr [] ∧
      keys (getField gameState.value "sessionStats") = SessionStatsFields ∧
      getPath gameState.value ["sessionStats", "correct"] = num 0 ∧
      getPath gameState.value ["sessionStats", "incorrect"] = num 0 ∧
      getPath gameState.value ["sessionStats", "total"] = num 0 ∧
      getField gameState.value "userAnswer" = str "" ∧
      getField gameState.value "showFeedback" = bool false ∧
      getField gameState.value "sessionComplete" = bool false ∧
      getField gameState.value "isLoading" = bool false ∧
      getField gameState.value "error" = null ∧
      sessionInvariant gameState.value = true) ∧
    (keys studentInsights.value = InsightsStateFields ∧
      getField studentInsights.value "total_problems_attempted" = num 0 ∧
      getField studentInsights.value "recent_accuracy" = num 0 ∧
      (∃ n, asInt? (getField studentInsights.value "recent_accuracy") = some n ∧
        0 ≤ n ∧ n ≤ 1) ∧
      getField studentInsights.value "weak_areas" = obj [] ∧
      keys (getField studentInsights.value "weak_areas") = [] ∧
      getField studentInsights.value "most_common_mistakes" = obj [] ∧
      keys (getField studentInsights.value "most_common_mistakes") = [] ∧
      getField studentInsights.value "recommended_focus" = null) := by
  refine ⟨⟨by decide, rfl, rfl, rfl, rfl, by decide, rfl, rfl, rfl, rfl, rfl, rfl, rfl, rfl,
    by decide⟩, by decide, rfl, rfl, ⟨0, rfl, by decide, by decide⟩, rfl, by decide, rfl,
    by decide, rfl⟩

end MathGenerator
